import Mathlib

/-!
Verification of the pagination/layout core of the image-to-PDF converter
(`src/src/App.tsx`: `generatePDF`, `calculateImageDimensions`,
`handleImageReorder`, `PAGE_SIZES`, `QUALITY_SETTINGS`).

JavaScript numbers are modelled as rationals (`ℚ`); all arithmetic in the
functions below is exact on the inputs the claims quantify over.  The
pdf-lib collaborator is modelled by its observable effects: a document is
the list of its pages, a page the list of images drawn onto it, and the
outcome of loading/decoding/embedding one image (which happens inside the
per-image `try` block) is part of the input model of each image
(`ImageModel.embed`): `some (w, h)` when every step succeeds and the
embedded object reports intrinsic size `w × h`, `none` when any step
throws.  The progress callback is modelled as always supplied; emitted
values are accumulated in order in `GenState.progressEvents`.
-/

namespace PdfConverter

/-- Named page size in points — `PageSize` from `src/src/types/index.ts`. -/
structure PageSize where
  width : ℚ
  height : ℚ
deriving DecidableEq, Repr

/-- The page-size class of `ConversionOptions.pageSize`. -/
inductive PageSizeName where
  | A4 | Letter | Legal
deriving DecidableEq, Repr

/-- `ConversionOptions.orientation`. -/
inductive Orientation where
  | portrait | landscape
deriving DecidableEq, Repr

/-- `ConversionOptions.quality`. -/
inductive Quality where
  | high | medium | low
deriving DecidableEq, Repr

/-- The `PAGE_SIZES` record (App.tsx lines 253–257). -/
def PAGE_SIZES : PageSizeName → PageSize
  | .A4 => { width := 595, height := 842 }
  | .Letter => { width := 612, height := 792 }
  | .Legal => { width := 612, height := 1008 }

/-- The `QUALITY_SETTINGS` record (App.tsx lines 259–263). -/
def QUALITY_SETTINGS : Quality → ℚ
  | .high => 9/10
  | .medium => 7/10
  | .low => 5/10

/-- `ConversionOptions` from `src/src/types/index.ts`.  The TypeScript type
annotates `imagesPerPage` as `1 | 2 | 4`; it is carried as a plain number
at runtime, so it is modelled as `ℕ` and the claims restrict it. -/
structure ConversionOptions where
  pageSize : PageSizeName
  orientation : Orientation
  margin : ℚ
  quality : Quality
  filename : String
  imagesPerPage : ℕ
deriving DecidableEq, Repr

/-- The rectangle returned by `calculateImageDimensions`. -/
structure Rect where
  scaledWidth : ℚ
  scaledHeight : ℚ
  x : ℚ
  y : ℚ
deriving DecidableEq, Repr

/-- `calculateImageDimensions` (App.tsx lines 350–405), translated
branch by branch.  `imageIndex` is the slot index on the current page
(`imagesOnCurrentPage` at the call site); `pageWidth`/`pageHeight` are
accepted but unused, as in the source. -/
def calculateImageDimensions (imgWidth imgHeight availableWidth availableHeight : ℚ)
    (imagesPerPage imageIndex : ℕ) (margin pageWidth pageHeight : ℚ) : Rect :=
  if imagesPerPage = 1 then
    -- Single image per page - fit to available space
    let scale := min (availableWidth / imgWidth) (availableHeight / imgHeight)
    let scaledWidth := imgWidth * scale
    let scaledHeight := imgHeight * scale
    { scaledWidth := scaledWidth, scaledHeight := scaledHeight
      x := margin + (availableWidth - scaledWidth) / 2
      y := margin + (availableHeight - scaledHeight) / 2 }
  else if imagesPerPage = 2 then
    -- Two images per page - side by side (10px gap between images)
    let imageAreaWidth := availableWidth / 2 - 10
    let scale := min (imageAreaWidth / imgWidth) (availableHeight / imgHeight)
    let scaledWidth := imgWidth * scale
    let scaledHeight := imgHeight * scale
    { scaledWidth := scaledWidth, scaledHeight := scaledHeight
      x := margin + (imageIndex % 2 : ℕ) * (availableWidth / 2) + (imageAreaWidth - scaledWidth) / 2
      y := margin + (availableHeight - scaledHeight) / 2 }
  else if imagesPerPage = 4 then
    -- Four images per page - 2x2 grid
    let imageAreaWidth := availableWidth / 2 - 10
    let imageAreaHeight := availableHeight / 2 - 10
    let scale := min (imageAreaWidth / imgWidth) (imageAreaHeight / imgHeight)
    let scaledWidth := imgWidth * scale
    let scaledHeight := imgHeight * scale
    let col := imageIndex % 2
    let row := (imageIndex / 2) % 2
    { scaledWidth := scaledWidth, scaledHeight := scaledHeight
      x := margin + (col : ℕ) * (availableWidth / 2) + (imageAreaWidth - scaledWidth) / 2
      y := margin + (row : ℕ) * (availableHeight / 2) + (imageAreaHeight - scaledHeight) / 2 }
  else
    -- Default to single image layout
    let scale := min (availableWidth / imgWidth) (availableHeight / imgHeight)
    let scaledWidth := imgWidth * scale
    let scaledHeight := imgHeight * scale
    { scaledWidth := scaledWidth, scaledHeight := scaledHeight
      x := margin + (availableWidth - scaledWidth) / 2
      y := margin + (availableHeight - scaledHeight) / 2 }

/-- JavaScript `String.prototype.includes`: substring containment. -/
def strIncludes (s sub : String) : Bool :=
  decide (sub.toList <:+: s.toList)

/-- The embeddable form `generatePDF` chooses for one image. -/
inductive EmbedForm where
  | png
  | jpgDirect
  | jpegReencoded (qualityFactor : ℚ)
deriving DecidableEq, Repr

/-- The media-type dispatch of `generatePDF` (App.tsx lines 296–306):
`file.type.includes('png')` → embed raw bytes as PNG;
`includes('jpg') || includes('jpeg')` → embed raw bytes as JPEG;
otherwise draw to a canvas and re-encode as JPEG at
`QUALITY_SETTINGS[options.quality]`. -/
def chooseEmbedForm (mediaType : String) (quality : Quality) : EmbedForm :=
  if strIncludes mediaType "png" then
    .png
  else if strIncludes mediaType "jpg" || strIncludes mediaType "jpeg" then
    .jpgDirect
  else
    .jpegReencoded (QUALITY_SETTINGS quality)

/-- One image handed to `generatePDF`.  `embed = some (w, h)` models the
per-image `try` block succeeding (bytes load, decode/embed succeed, the
embedded object has intrinsic size `w × h`); `embed = none` models any
step of the block throwing, which the `catch` turns into a skip. -/
structure ImageModel where
  embed : Option (ℚ × ℚ)
deriving DecidableEq, Repr

/-- One image as drawn onto a page by `currentPage.drawImage` — the
y-coordinate is already flipped (`pageHeight - y - scaledHeight`). -/
structure DrawnImage where
  x : ℚ
  y : ℚ
  width : ℚ
  height : ℚ
deriving DecidableEq, Repr

instance : Inhabited DrawnImage := ⟨⟨0, 0, 0, 0⟩⟩

/-- The mutable state of `generatePDF`'s loop: pages already sealed,
the page currently being filled (`currentPage`), the slot counter
`imagesOnCurrentPage`, and the progress values emitted so far. -/
structure GenState where
  sealedPages : List (List DrawnImage)
  currentPage : List DrawnImage
  imagesOnCurrentPage : ℕ
  progressEvents : List ℚ
deriving DecidableEq, Repr

/-- The image drawn by `currentPage.drawImage` (App.tsx lines 323–328):
the rectangle from `calculateImageDimensions` for slot `slot`, with the
y-coordinate flipped to the PDF's bottom-up convention. -/
def drawRect (imagesPerPage : ℕ) (margin pageWidth pageHeight availableWidth availableHeight : ℚ)
    (slot : ℕ) (imgWidth imgHeight : ℚ) : DrawnImage :=
  let r := calculateImageDimensions imgWidth imgHeight availableWidth availableHeight
    imagesPerPage slot margin pageWidth pageHeight
  { x := r.x, y := pageHeight - r.y - r.scaledHeight
    width := r.scaledWidth, height := r.scaledHeight }

/-- `onProgress(value)`: append one emitted progress value. -/
def pushProgress (st : GenState) (value : ℚ) : GenState :=
  { st with progressEvents := st.progressEvents ++ [value] }

/-- `currentPage.drawImage(...)` followed by `imagesOnCurrentPage++`
(App.tsx lines 323–330). -/
def placeImage (st : GenState) (d : DrawnImage) : GenState :=
  { st with
    currentPage := st.currentPage ++ [d],
    imagesOnCurrentPage := st.imagesOnCurrentPage + 1 }

/-- `currentPage = pdfDoc.addPage(...)` with `imagesOnCurrentPage = 0`
(App.tsx lines 334–335): the filled page joins the sealed pages. -/
def sealPage (st : GenState) : GenState :=
  { st with
    sealedPages := st.sealedPages ++ [st.currentPage],
    currentPage := [],
    imagesOnCurrentPage := 0 }

@[simp] lemma pushProgress_sealedPages (st : GenState) (q : ℚ) :
    (pushProgress st q).sealedPages = st.sealedPages := rfl

@[simp] lemma pushProgress_currentPage (st : GenState) (q : ℚ) :
    (pushProgress st q).currentPage = st.currentPage := rfl

@[simp] lemma pushProgress_imagesOnCurrentPage (st : GenState) (q : ℚ) :
    (pushProgress st q).imagesOnCurrentPage = st.imagesOnCurrentPage := rfl

@[simp] lemma pushProgress_progressEvents (st : GenState) (q : ℚ) :
    (pushProgress st q).progressEvents = st.progressEvents ++ [q] := rfl

@[simp] lemma placeImage_sealedPages (st : GenState) (d : DrawnImage) :
    (placeImage st d).sealedPages = st.sealedPages := rfl

@[simp] lemma placeImage_currentPage (st : GenState) (d : DrawnImage) :
    (placeImage st d).currentPage = st.currentPage ++ [d] := rfl

@[simp] lemma placeImage_imagesOnCurrentPage (st : GenState) (d : DrawnImage) :
    (placeImage st d).imagesOnCurrentPage = st.imagesOnCurrentPage + 1 := rfl

@[simp] lemma placeImage_progressEvents (st : GenState) (d : DrawnImage) :
    (placeImage st d).progressEvents = st.progressEvents := rfl

@[simp] lemma sealPage_sealedPages (st : GenState) :
    (sealPage st).sealedPages = st.sealedPages ++ [st.currentPage] := rfl

@[simp] lemma sealPage_currentPage (st : GenState) :
    (sealPage st).currentPage = [] := rfl

@[simp] lemma sealPage_imagesOnCurrentPage (st : GenState) :
    (sealPage st).imagesOnCurrentPage = 0 := rfl

@[simp] lemma sealPage_progressEvents (st : GenState) :
    (sealPage st).progressEvents = st.progressEvents := rfl

/-- The body of `generatePDF`'s `for` loop (App.tsx lines 283–341),
recursing over the remaining images with `i` the current 0-based index
and `n` the total image count.  Each iteration first emits
`(i / n) * 100`; on embed failure it skips to the next image; on success
it draws at the rectangle from `calculateImageDimensions` (flipping y),
increments the slot counter, and seals the page when the counter reaches
`imagesPerPage` and this was not the last image. -/
def generatePDFLoop (imagesPerPage : ℕ) (margin pageWidth pageHeight availableWidth availableHeight : ℚ)
    (n : ℕ) : List ImageModel → ℕ → GenState → GenState
  | [], _, st => st
  | img :: rest, i, st =>
    let st1 : GenState := pushProgress st (((i : ℚ) / (n : ℚ)) * 100)
    match img.embed with
    | none =>
      -- catch: log and continue with the next image
      generatePDFLoop imagesPerPage margin pageWidth pageHeight availableWidth availableHeight
        n rest (i + 1) st1
    | some (imgWidth, imgHeight) =>
      let st2 : GenState := placeImage st1
        (drawRect imagesPerPage margin pageWidth pageHeight availableWidth availableHeight
          st1.imagesOnCurrentPage imgWidth imgHeight)
      let st3 : GenState :=
        if st2.imagesOnCurrentPage ≥ imagesPerPage ∧ i < n - 1 then sealPage st2 else st2
      generatePDFLoop imagesPerPage margin pageWidth pageHeight availableWidth availableHeight
        n rest (i + 1) st3

lemma generatePDFLoop_nil (ipp : ℕ) (margin pw ph aw ah : ℚ) (n i : ℕ) (st : GenState) :
    generatePDFLoop ipp margin pw ph aw ah n [] i st = st := rfl

/-- One-step unfolding: a failing image only emits progress and is
skipped. -/
lemma generatePDFLoop_cons_none (ipp : ℕ) (margin pw ph aw ah : ℚ) (n : ℕ)
    (img : ImageModel) (rest : List ImageModel) (i : ℕ) (st : GenState)
    (hemb : img.embed = none) :
    generatePDFLoop ipp margin pw ph aw ah n (img :: rest) i st =
      generatePDFLoop ipp margin pw ph aw ah n rest (i + 1)
        (pushProgress st (((i : ℚ) / (n : ℚ)) * 100)) := by
  obtain ⟨emb⟩ := img
  cases emb with
  | none => rfl
  | some wh => simp at hemb

/-- One-step unfolding: a successful image that fills the page, not the
last of the list, is placed and the page is sealed. -/
lemma generatePDFLoop_cons_some_seal (ipp : ℕ) (margin pw ph aw ah : ℚ) (n : ℕ)
    (img : ImageModel) (rest : List ImageModel) (i : ℕ) (st : GenState) (w h : ℚ)
    (hemb : img.embed = some (w, h))
    (hcond : st.imagesOnCurrentPage + 1 ≥ ipp ∧ i < n - 1) :
    generatePDFLoop ipp margin pw ph aw ah n (img :: rest) i st =
      generatePDFLoop ipp margin pw ph aw ah n rest (i + 1)
        (sealPage (placeImage (pushProgress st (((i : ℚ) / (n : ℚ)) * 100))
          (drawRect ipp margin pw ph aw ah st.imagesOnCurrentPage w h))) := by
  obtain ⟨emb⟩ := img
  cases emb with
  | none => simp at hemb
  | some wh =>
    simp only [ImageModel.mk.injEq, Option.some.injEq] at hemb
    subst hemb
    conv_lhs => rw [generatePDFLoop]
    dsimp only [pushProgress_imagesOnCurrentPage, placeImage_imagesOnCurrentPage]
    rw [if_pos hcond]

/-- One-step unfolding: a successful image that does not trigger a page
break is just placed into the next slot. -/
lemma generatePDFLoop_cons_some_noseal (ipp : ℕ) (margin pw ph aw ah : ℚ) (n : ℕ)
    (img : ImageModel) (rest : List ImageModel) (i : ℕ) (st : GenState) (w h : ℚ)
    (hemb : img.embed = some (w, h))
    (hcond : ¬ (st.imagesOnCurrentPage + 1 ≥ ipp ∧ i < n - 1)) :
    generatePDFLoop ipp margin pw ph aw ah n (img :: rest) i st =
      generatePDFLoop ipp margin pw ph aw ah n rest (i + 1)
        (placeImage (pushProgress st (((i : ℚ) / (n : ℚ)) * 100))
          (drawRect ipp margin pw ph aw ah st.imagesOnCurrentPage w h)) := by
  obtain ⟨emb⟩ := img
  cases emb with
  | none => simp at hemb
  | some wh =>
    simp only [ImageModel.mk.injEq, Option.some.injEq] at hemb
    subst hemb
    conv_lhs => rw [generatePDFLoop]
    dsimp only [pushProgress_imagesOnCurrentPage, placeImage_imagesOnCurrentPage]
    rw [if_neg hcond]

/-- The resolved page width (App.tsx lines 271–274): the page-size class
width, or its height when the orientation is landscape. -/
def pageWidthOf (options : ConversionOptions) : ℚ :=
  match options.orientation with
  | .landscape => (PAGE_SIZES options.pageSize).height
  | .portrait => (PAGE_SIZES options.pageSize).width

/-- The resolved page height (App.tsx lines 271–274). -/
def pageHeightOf (options : ConversionOptions) : ℚ :=
  match options.orientation with
  | .landscape => (PAGE_SIZES options.pageSize).width
  | .portrait => (PAGE_SIZES options.pageSize).height

/-- `availableWidth = pageWidth - margin * 2` (App.tsx line 277). -/
def availableWidthOf (options : ConversionOptions) : ℚ :=
  pageWidthOf options - options.margin * 2

/-- `availableHeight = pageHeight - margin * 2` (App.tsx line 278). -/
def availableHeightOf (options : ConversionOptions) : ℚ :=
  pageHeightOf options - options.margin * 2

/-- The state when the loop starts: the initial page has been created,
empty, with the slot counter at 0 and nothing emitted. -/
def initialState : GenState :=
  { sealedPages := [], currentPage := [], imagesOnCurrentPage := 0, progressEvents := [] }

@[simp] lemma initialState_sealedPages : initialState.sealedPages = [] := rfl

@[simp] lemma initialState_currentPage : initialState.currentPage = [] := rfl

@[simp] lemma initialState_imagesOnCurrentPage : initialState.imagesOnCurrentPage = 0 := rfl

@[simp] lemma initialState_progressEvents : initialState.progressEvents = [] := rfl

/-- `generatePDF` (App.tsx lines 265–348): resolve the page geometry from
the options (swapping dimensions for landscape), create the initial page,
run the loop over all images, and emit the final `100`. -/
def generatePDF (images : List ImageModel) (options : ConversionOptions) : GenState :=
  pushProgress
    (generatePDFLoop options.imagesPerPage options.margin (pageWidthOf options)
      (pageHeightOf options) (availableWidthOf options) (availableHeightOf options)
      images.length images 0 initialState)
    100

/-- The pages of the produced document, in order: every page was added by
`pdfDoc.addPage`, and the page being filled is always the last one. -/
def pdfPages (st : GenState) : List (List DrawnImage) :=
  st.sealedPages ++ [st.currentPage]

/-- Number of pages of the produced document. -/
def pageCount (st : GenState) : ℕ :=
  (pdfPages st).length

/-- Number of images of the input list whose embedding succeeds
(the "successfully placed" images). -/
def placedCount (images : List ImageModel) : ℕ :=
  (images.filter (fun im => im.embed.isSome)).length

/-- `handleImageReorder` (App.tsx lines 69–77): read the dragged item,
remove it at `dragIndex`, re-insert it at `hoverIndex`.  Only the
in-bounds case is modelled (out of bounds, JavaScript would splice in
`undefined`; no caller does that). -/
def handleImageReorder {α : Type} (prev : List α) (dragIndex hoverIndex : ℕ) : List α :=
  match prev.get? dragIndex with
  | some draggedImage => (prev.eraseIdx dragIndex).insertIdx hoverIndex draggedImage
  | none => prev

/-- Width of the grid cell an image is fitted into, per layout mode:
the full available width for 1-per-page (and the fallback), half of it
minus the 10-point gap for the 2- and 4-per-page modes. -/
def cellWidth (availableWidth : ℚ) (imagesPerPage : ℕ) : ℚ :=
  if imagesPerPage = 2 ∨ imagesPerPage = 4 then availableWidth / 2 - 10 else availableWidth

/-- Height of the grid cell an image is fitted into, per layout mode:
half the available height minus the 10-point gap for 4-per-page, the
full available height otherwise. -/
def cellHeight (availableHeight : ℚ) (imagesPerPage : ℕ) : ℚ :=
  if imagesPerPage = 4 then availableHeight / 2 - 10 else availableHeight

end PdfConverter

namespace PdfConverter

/-- Fit-and-center scale: the scaled dimensions stay within the cell and
keep the intrinsic aspect ratio. -/
lemma fitScale_spec (w h cw ch : ℚ) (hw : 0 < w) (hh : 0 < h) (hcw : 0 < cw) (hch : 0 < ch) :
    w * min (cw / w) (ch / h) ≤ cw ∧ h * min (cw / w) (ch / h) ≤ ch ∧
      w * min (cw / w) (ch / h) / (h * min (cw / w) (ch / h)) = w / h := by
  have hs : 0 < min (cw / w) (ch / h) := lt_min (div_pos hcw hw) (div_pos hch hh)
  refine ⟨?_, ?_, ?_⟩
  · calc w * min (cw / w) (ch / h) ≤ w * (cw / w) :=
          mul_le_mul_of_nonneg_left (min_le_left _ _) hw.le
    _ = cw := by field_simp
  · calc h * min (cw / w) (ch / h) ≤ h * (ch / h) :=
          mul_le_mul_of_nonneg_left (min_le_right _ _) hh.le
    _ = ch := by field_simp
  · exact mul_div_mul_right _ _ hs.ne'

/-- Claim C4: in each of the modes 1, 2 and 4, the rectangle returned by
`calculateImageDimensions` fits inside the per-slot cell in both
dimensions and preserves the intrinsic aspect ratio exactly. -/
theorem calculateImageDimensions_fits_cell_and_preserves_aspect
    (imgWidth imgHeight availableWidth availableHeight margin pageWidth pageHeight : ℚ)
    (imagesPerPage imageIndex : ℕ)
    (hw : 0 < imgWidth) (hh : 0 < imgHeight)
    (hmode : imagesPerPage = 1 ∨ imagesPerPage = 2 ∨ imagesPerPage = 4)
    (hcw : 0 < cellWidth availableWidth imagesPerPage)
    (hch : 0 < cellHeight availableHeight imagesPerPage) :
    (calculateImageDimensions imgWidth imgHeight availableWidth availableHeight
        imagesPerPage imageIndex margin pageWidth pageHeight).scaledWidth ≤
      cellWidth availableWidth imagesPerPage ∧
    (calculateImageDimensions imgWidth imgHeight availableWidth availableHeight
        imagesPerPage imageIndex margin pageWidth pageHeight).scaledHeight ≤
      cellHeight availableHeight imagesPerPage ∧
    (calculateImageDimensions imgWidth imgHeight availableWidth availableHeight
        imagesPerPage imageIndex margin pageWidth pageHeight).scaledWidth /
      (calculateImageDimensions imgWidth imgHeight availableWidth availableHeight
        imagesPerPage imageIndex margin pageWidth pageHeight).scaledHeight =
      imgWidth / imgHeight := by
  rcases hmode with hm | hm | hm <;> subst hm
  · exact fitScale_spec imgWidth imgHeight (cellWidth availableWidth 1)
      (cellHeight availableHeight 1) hw hh hcw hch
  · exact fitScale_spec imgWidth imgHeight (cellWidth availableWidth 2)
      (cellHeight availableHeight 2) hw hh hcw hch
  · exact fitScale_spec imgWidth imgHeight (cellWidth availableWidth 4)
      (cellHeight availableHeight 4) hw hh hcw hch

/-- Witness for claim C4 at a concrete input (A4 portrait geometry,
margin 20, one 400×300 image, 1-per-page). -/
theorem calculateImageDimensions_fits_cell_and_preserves_aspect_witness :
    (calculateImageDimensions 400 300 555 802 1 0 20 595 842).scaledWidth ≤ cellWidth 555 1 ∧
    (calculateImageDimensions 400 300 555 802 1 0 20 595 842).scaledHeight ≤ cellHeight 802 1 ∧
    (calculateImageDimensions 400 300 555 802 1 0 20 595 842).scaledWidth /
      (calculateImageDimensions 400 300 555 802 1 0 20 595 842).scaledHeight = 400 / 300 :=
  calculateImageDimensions_fits_cell_and_preserves_aspect 400 300 555 802 20 595 842 1 0
    (by norm_num) (by norm_num) (Or.inl rfl)
    (by norm_num [cellWidth]) (by norm_num [cellHeight])

/-- Claim C6: on A4 portrait with margin 20, 1 image per page and a
400×300 image, the layout calculator returns scaledWidth = 555,
scaledHeight = 416.25, x = 20 and y = 212.875 (top-down, pre-flip);
the scale used is min(555/400, 802/300) = 1.3875. -/
theorem calculateImageDimensions_a4_scenario :
    calculateImageDimensions 400 300 ((PAGE_SIZES .A4).width - 20 * 2)
        ((PAGE_SIZES .A4).height - 20 * 2) 1 0 20
        (PAGE_SIZES .A4).width (PAGE_SIZES .A4).height =
      { scaledWidth := 555, scaledHeight := 416.25, x := 20, y := 212.875 } := by
  norm_num [PAGE_SIZES, calculateImageDimensions, min_def]

/-- Claim C8: any `imagesPerPage` outside {1, 2, 4} produces exactly the
result of the 1-per-page branch — the fallback is extensionally the
1-per-page rule and never an error. -/
theorem calculateImageDimensions_fallback_eq_single
    (imgWidth imgHeight availableWidth availableHeight margin pageWidth pageHeight : ℚ)
    (imagesPerPage imageIndex : ℕ)
    (h1 : imagesPerPage ≠ 1) (h2 : imagesPerPage ≠ 2) (h4 : imagesPerPage ≠ 4) :
    calculateImageDimensions imgWidth imgHeight availableWidth availableHeight
        imagesPerPage imageIndex margin pageWidth pageHeight =
      calculateImageDimensions imgWidth imgHeight availableWidth availableHeight
        1 imageIndex margin pageWidth pageHeight := by
  simp [calculateImageDimensions, h1, h2, h4]

/-- Witness for claim C8 at `imagesPerPage = 3`. -/
theorem calculateImageDimensions_fallback_eq_single_witness :
    calculateImageDimensions 400 300 555 802 3 1 20 595 842 =
      calculateImageDimensions 400 300 555 802 1 1 20 595 842 :=
  calculateImageDimensions_fallback_eq_single 400 300 555 802 20 595 842 3 1
    (by decide) (by decide) (by decide)

/-- Claim C10: `calculateImageDimensions` is total for nonzero intrinsic
dimensions — it always returns a rectangle — and on a degenerate
configuration (margin 300 on an A4 page, so the available width is
negative) it returns a rectangle with negative width rather than
signalling an error. -/
theorem calculateImageDimensions_total
    (imgWidth imgHeight availableWidth availableHeight margin pageWidth pageHeight : ℚ)
    (imagesPerPage imageIndex : ℕ)
    (hw : imgWidth ≠ 0) (hh : imgHeight ≠ 0) :
    (∃ r : Rect, calculateImageDimensions imgWidth imgHeight availableWidth availableHeight
        imagesPerPage imageIndex margin pageWidth pageHeight = r) ∧
    (calculateImageDimensions 400 300 (595 - 300 * 2) (842 - 300 * 2)
        1 0 300 595 842).scaledWidth < 0 := by
  refine ⟨⟨_, rfl⟩, ?_⟩
  norm_num [calculateImageDimensions, min_def]

/-- Witness for claim C10 at a concrete input. -/
theorem calculateImageDimensions_total_witness :
    (∃ r : Rect, calculateImageDimensions 400 300 555 802 1 0 20 595 842 = r) ∧
    (calculateImageDimensions 400 300 (595 - 300 * 2) (842 - 300 * 2)
        1 0 300 595 842).scaledWidth < 0 :=
  calculateImageDimensions_total 400 300 555 802 20 595 842 1 0
    (by norm_num) (by norm_num)

/-- Claim C7: the embedding form is chosen from the declared media type —
PNG media types embed the raw bytes as PNG, JPEG media types embed the
raw bytes as JPEG, anything else is re-encoded as JPEG at quality factor
0.9 / 0.7 / 0.5 for high / medium / low — and the quality factor only
affects the re-encoding branch. -/
theorem chooseEmbedForm_spec (mediaType : String) (quality : Quality) :
    (strIncludes mediaType "png" = true →
      chooseEmbedForm mediaType quality = .png) ∧
    (strIncludes mediaType "png" = false →
      strIncludes mediaType "jpg" = true ∨ strIncludes mediaType "jpeg" = true →
      chooseEmbedForm mediaType quality = .jpgDirect) ∧
    (strIncludes mediaType "png" = false → strIncludes mediaType "jpg" = false →
      strIncludes mediaType "jpeg" = false →
      chooseEmbedForm mediaType quality = .jpegReencoded (QUALITY_SETTINGS quality)) ∧
    QUALITY_SETTINGS .high = 0.9 ∧ QUALITY_SETTINGS .medium = 0.7 ∧
    QUALITY_SETTINGS .low = 0.5 ∧
    (strIncludes mediaType "png" = true ∨ strIncludes mediaType "jpg" = true ∨
        strIncludes mediaType "jpeg" = true →
      ∀ q1 q2 : Quality, chooseEmbedForm mediaType q1 = chooseEmbedForm mediaType q2) := by
  refine ⟨?_, ?_, ?_, by norm_num [QUALITY_SETTINGS], by norm_num [QUALITY_SETTINGS],
    by norm_num [QUALITY_SETTINGS], ?_⟩
  · intro hpng
    simp [chooseEmbedForm, hpng]
  · intro hpng hjpg
    rcases hjpg with hj | hj <;> simp [chooseEmbedForm, hpng, hj]
  · intro hpng hjpg hjpeg
    simp [chooseEmbedForm, hpng, hjpg, hjpeg]
  · intro hsome q1 q2
    rcases hsome with hx | hx | hx <;> simp [chooseEmbedForm, hx]

/-- Witness for claim C7: a PNG media type embeds as PNG. -/
theorem chooseEmbedForm_spec_witness :
    chooseEmbedForm "image/png" .low = .png :=
  (chooseEmbedForm_spec "image/png" .low).1 (by decide)

/-- Claim C9: for distinct in-bounds indices, `handleImageReorder`
returns a permutation of the input of the same length, with the dragged
item now at `hoverIndex` and the relative order of all other items
unchanged (removing the moved item from both lists yields equal lists). -/
theorem handleImageReorder_moves_item {α : Type} (prev : List α) (dragIndex hoverIndex : ℕ)
    (hd : dragIndex < prev.length) (hh : hoverIndex < prev.length)
    (hne : dragIndex ≠ hoverIndex) :
    (handleImageReorder prev dragIndex hoverIndex).length = prev.length ∧
    (handleImageReorder prev dragIndex hoverIndex).Perm prev ∧
    (handleImageReorder prev dragIndex hoverIndex)[hoverIndex]? = prev[dragIndex]? ∧
    (handleImageReorder prev dragIndex hoverIndex).eraseIdx hoverIndex =
      prev.eraseIdx dragIndex := by
  have hget : prev.get? dragIndex = some prev[dragIndex] := by
    rw [List.get?_eq_getElem?]
    exact List.getElem?_eq_getElem hd
  have hlenerase : (prev.eraseIdx dragIndex).length = prev.length - 1 := by
    rw [List.length_eraseIdx]
    simp [hd]
  have hhle : hoverIndex ≤ (prev.eraseIdx dragIndex).length := by omega
  have hre : handleImageReorder prev dragIndex hoverIndex =
      (prev.eraseIdx dragIndex).insertIdx hoverIndex prev[dragIndex] := by
    rw [handleImageReorder, hget]
  have hperm_erase : (prev[dragIndex] :: prev.eraseIdx dragIndex).Perm prev := by
    conv_rhs => rw [← List.take_append_drop dragIndex prev, List.drop_eq_getElem_cons hd]
    rw [List.eraseIdx_eq_take_drop_succ]
    exact List.perm_middle.symm
  refine ⟨?_, ?_, ?_, ?_⟩
  · rw [hre, List.length_insertIdx _ _ hhle]
    omega
  · rw [hre]
    exact (List.perm_insertIdx _ _ hhle).trans hperm_erase
  · rw [hre,
      List.getElem?_eq_getElem (by rw [List.length_insertIdx _ _ hhle]; omega),
      List.getElem_insertIdx_self _ _ _ hhle,
      List.getElem?_eq_getElem hd]
  · rw [hre, List.eraseIdx_insertIdx]

/-- Witness for claim C9 on the list [10, 20, 30], moving index 0 to
index 2. -/
theorem handleImageReorder_moves_item_witness :
    (handleImageReorder [10, 20, 30] 0 2).length = ([10, 20, 30] : List ℕ).length ∧
    (handleImageReorder [10, 20, 30] 0 2).Perm [10, 20, 30] ∧
    (handleImageReorder [10, 20, 30] 0 2)[2]? = ([10, 20, 30] : List ℕ)[0]? ∧
    (handleImageReorder [10, 20, 30] 0 2).eraseIdx 2 = ([10, 20, 30] : List ℕ).eraseIdx 0 :=
  handleImageReorder_moves_item [10, 20, 30] 0 2 (by decide) (by decide) (by decide)

/-- The progress values the loop emits when entered at index `i` with
`k` images left to process: one value per image. -/
def progressSlice (n i k : ℕ) : List ℚ :=
  (List.range k).map (fun j => ((i + j : ℕ) : ℚ) / (n : ℚ) * 100)

lemma progressSlice_zero (n i : ℕ) : progressSlice n i 0 = [] := rfl

lemma progressSlice_succ (n i k : ℕ) :
    progressSlice n i (k + 1) = ((i : ℚ) / (n : ℚ) * 100) :: progressSlice n (i + 1) k := by
  have hfun : ((fun j => ((i + j : ℕ) : ℚ) / (n : ℚ) * 100) ∘ Nat.succ) =
      (fun j => ((i + 1 + j : ℕ) : ℚ) / (n : ℚ) * 100) := by
    funext j
    have h2 : i + Nat.succ j = i + 1 + j := by omega
    simp only [Function.comp_apply, h2]
  simp only [progressSlice, List.range_succ_eq_map, List.map_cons, List.map_map, hfun]
  norm_num

/-- The loop emits exactly one progress value, `(i / n) * 100`, at the
head of each iteration, whether or not the image embeds. -/
lemma generatePDFLoop_progressEvents (ipp : ℕ) (margin pw ph aw ah : ℚ) (n : ℕ) :
    ∀ (imgs : List ImageModel) (i : ℕ) (st : GenState),
      (generatePDFLoop ipp margin pw ph aw ah n imgs i st).progressEvents =
        st.progressEvents ++ progressSlice n i imgs.length := by
  intro imgs
  induction imgs with
  | nil =>
    intro i st
    simp [generatePDFLoop, progressSlice_zero]
  | cons img rest ih =>
    intro i st
    cases hemb : img.embed with
    | none =>
      simp only [generatePDFLoop, hemb]
      rw [ih, List.length_cons, progressSlice_succ]
      simp
    | some wh =>
      obtain ⟨w, h⟩ := wh
      simp only [generatePDFLoop, hemb]
      split
      · rw [ih, List.length_cons, progressSlice_succ]
        simp
      · rw [ih, List.length_cons, progressSlice_succ]
        simp


lemma progressSlice_from_zero (n : ℕ) :
    progressSlice n 0 n = (List.range n).map (fun i : ℕ => (i : ℚ) / (n : ℚ) * 100) := by
  simp [progressSlice]

/-- Claim C3: with a progress callback supplied, `generatePDF` emits
`i / n * 100` before processing the image at index `i` and exactly one
final `100` after the loop; the emitted sequence is non-decreasing, its
last value is exactly 100, and for an empty list it is just `[100]`. -/
theorem generatePDF_progress_spec (images : List ImageModel) (options : ConversionOptions) :
    (generatePDF images options).progressEvents =
      (List.range images.length).map
        (fun i : ℕ => (i : ℚ) / (images.length : ℚ) * 100) ++ [100] ∧
    List.Chain' (· ≤ ·) (generatePDF images options).progressEvents ∧
    (generatePDF images options).progressEvents.getLast? = some 100 ∧
    (images = [] → (generatePDF images options).progressEvents = [100]) := by
  have hev : (generatePDF images options).progressEvents =
      (List.range images.length).map
        (fun i : ℕ => (i : ℚ) / (images.length : ℚ) * 100) ++ [100] := by
    simp only [generatePDF, pushProgress_progressEvents]
    rw [generatePDFLoop_progressEvents]
    simp [progressSlice_from_zero, initialState]
  have hpair : List.Pairwise (· ≤ ·)
      ((List.range images.length).map
        (fun i : ℕ => (i : ℚ) / (images.length : ℚ) * 100) ++ [100]) := by
    rcases Nat.eq_zero_or_pos images.length with hn | hn
    · rw [hn]
      simp
    have hnq : (0 : ℚ) < (images.length : ℚ) := by exact_mod_cast hn
    rw [List.pairwise_append]
    refine ⟨?_, by simp, ?_⟩
    · refine (List.pairwise_lt_range images.length).map _ (fun a b hab => ?_)
      have hdl : (a : ℚ) / (images.length : ℚ) ≤ (b : ℚ) / (images.length : ℚ) :=
        (div_le_div_iff_of_pos_right hnq).mpr (by exact_mod_cast hab.le)
      exact mul_le_mul_of_nonneg_right hdl (by norm_num)
    · intro x hx y hy
      simp only [List.mem_singleton] at hy
      subst hy
      simp only [List.mem_map, List.mem_range] at hx
      obtain ⟨a, ha, rfl⟩ := hx
      have h1 : (a : ℚ) / (images.length : ℚ) ≤ 1 := by
        rw [div_le_one hnq]
        exact_mod_cast ha.le
      calc (a : ℚ) / (images.length : ℚ) * 100 ≤ 1 * 100 :=
            mul_le_mul_of_nonneg_right h1 (by norm_num)
        _ = 100 := by norm_num
  refine ⟨hev, ?_, ?_, ?_⟩
  · rw [hev]
    exact hpair.chain'
  · rw [hev]
    exact List.getLast?_append_cons _ 100 []
  · intro h
    subst h
    simpa using hev



lemma placedCount_nil : placedCount [] = 0 := rfl

lemma placedCount_cons_none (img : ImageModel) (rest : List ImageModel)
    (h : img.embed = none) : placedCount (img :: rest) = placedCount rest := by
  simp [placedCount, List.filter_cons, h]

lemma placedCount_cons_some (img : ImageModel) (rest : List ImageModel)
    {wh : ℚ × ℚ} (h : img.embed = some wh) :
    placedCount (img :: rest) = placedCount rest + 1 := by
  simp [placedCount, List.filter_cons, h]

/-- Loop invariant for the page count: each sealed page holds exactly
`imagesPerPage` images, so sealed-pages × capacity + slot counter counts
the images placed so far; the counter never exceeds the capacity. -/
lemma generatePDFLoop_count (ipp : ℕ) (margin pw ph aw ah : ℚ) (n : ℕ) (hipp : 0 < ipp) :
    ∀ (imgs : List ImageModel) (i : ℕ) (st : GenState),
      i + imgs.length = n →
      st.imagesOnCurrentPage < ipp →
      (generatePDFLoop ipp margin pw ph aw ah n imgs i st).sealedPages.length * ipp +
          (generatePDFLoop ipp margin pw ph aw ah n imgs i st).imagesOnCurrentPage =
        st.sealedPages.length * ipp + st.imagesOnCurrentPage + placedCount imgs ∧
      (generatePDFLoop ipp margin pw ph aw ah n imgs i st).imagesOnCurrentPage ≤ ipp := by
  intro imgs
  induction imgs with
  | nil =>
    intro i st hi hc
    refine ⟨?_, hc.le⟩
    simp [generatePDFLoop_nil, placedCount_nil]
  | cons img rest ih =>
    intro i st hi hc
    obtain ⟨emb⟩ := img
    cases emb with
    | none =>
      rw [placedCount_cons_none ⟨none⟩ rest rfl,
        generatePDFLoop_cons_none ipp margin pw ph aw ah n ⟨none⟩ rest i st rfl]
      have hrec := ih (i + 1) (pushProgress st (((i : ℚ) / (n : ℚ)) * 100))
        (by simp at hi ⊢; omega) (by simpa using hc)
      simpa using hrec
    | some wh =>
      obtain ⟨w, h⟩ := wh
      rw [placedCount_cons_some ⟨some (w, h)⟩ rest rfl]
      cases rest with
      | nil =>
        have hnoseal : ¬ (st.imagesOnCurrentPage + 1 ≥ ipp ∧ i < n - 1) := by
          simp at hi
          omega
        rw [generatePDFLoop_cons_some_noseal ipp margin pw ph aw ah n ⟨some (w, h)⟩ [] i st
          w h rfl hnoseal, generatePDFLoop_nil]
        refine ⟨?_, by simp; omega⟩
        simp [placedCount_nil]
        omega
      | cons r rs =>
        have hlt : i < n - 1 := by
          simp at hi
          omega
        by_cases hfull : st.imagesOnCurrentPage + 1 ≥ ipp
        · rw [generatePDFLoop_cons_some_seal ipp margin pw ph aw ah n ⟨some (w, h)⟩ (r :: rs)
            i st w h rfl (And.intro hfull hlt)]
          obtain ⟨e1, e2⟩ := ih (i + 1)
            (sealPage (placeImage (pushProgress st (((i : ℚ) / (n : ℚ)) * 100))
              (drawRect ipp margin pw ph aw ah st.imagesOnCurrentPage w h)))
            (by simp at hi ⊢; omega) (by simpa using hipp)
          refine ⟨?_, e2⟩
          rw [e1]
          simp only [sealPage_sealedPages, sealPage_imagesOnCurrentPage, placeImage_sealedPages,
            pushProgress_sealedPages, List.length_append, List.length_singleton]
          have hfill : st.imagesOnCurrentPage + 1 = ipp := by omega
          have hdist : (st.sealedPages.length + 1) * ipp = st.sealedPages.length * ipp + ipp := by
            ring
          rw [hdist]
          omega
        · rw [generatePDFLoop_cons_some_noseal ipp margin pw ph aw ah n ⟨some (w, h)⟩ (r :: rs)
            i st w h rfl (fun hand => hfull (And.left hand))]
          obtain ⟨e1, e2⟩ := ih (i + 1)
            (placeImage (pushProgress st (((i : ℚ) / (n : ℚ)) * 100))
              (drawRect ipp margin pw ph aw ah st.imagesOnCurrentPage w h))
            (by simp at hi ⊢; omega) (by simp; omega)
          refine ⟨?_, e2⟩
          rw [e1]
          simp only [placeImage_sealedPages, placeImage_imagesOnCurrentPage,
            pushProgress_sealedPages, pushProgress_imagesOnCurrentPage]
          omega


/-- If the last image of the list embeds successfully, the loop ends
with at least one image on the (never sealed) final page: the page-break
guard `i < n - 1` is false at the last index. -/
lemma generatePDFLoop_last_success (ipp : ℕ) (margin pw ph aw ah : ℚ) (n : ℕ) :
    ∀ (imgs : List ImageModel) (i : ℕ) (st : GenState) (lastImg : ImageModel),
      imgs.getLast? = some lastImg → lastImg.embed.isSome = true →
      i + imgs.length = n →
      1 ≤ (generatePDFLoop ipp margin pw ph aw ah n imgs i st).imagesOnCurrentPage := by
  intro imgs
  induction imgs with
  | nil =>
    intro i st lastImg hlast _ _
    simp at hlast
  | cons img rest ih =>
    intro i st lastImg hlast hsome hi
    cases rest with
    | nil =>
      have himg : img = lastImg := by simpa using hlast
      subst himg
      obtain ⟨emb⟩ := img
      cases emb with
      | none => simp at hsome
      | some wh =>
        obtain ⟨w, h⟩ := wh
        have hnoseal : ¬ (st.imagesOnCurrentPage + 1 ≥ ipp ∧ i < n - 1) := by
          simp at hi
          omega
        rw [generatePDFLoop_cons_some_noseal ipp margin pw ph aw ah n ⟨some (w, h)⟩ [] i st
          w h rfl hnoseal, generatePDFLoop_nil]
        simp
    | cons r rs =>
      have hlast2 : (r :: rs).getLast? = some lastImg := by
        rwa [List.getLast?_cons_cons] at hlast
      have hi2 : i + 1 + (r :: rs).length = n := by
        simp at hi ⊢
        omega
      obtain ⟨emb⟩ := img
      cases emb with
      | none =>
        rw [generatePDFLoop_cons_none ipp margin pw ph aw ah n ⟨none⟩ (r :: rs) i st rfl]
        exact ih (i + 1) _ lastImg hlast2 hsome hi2
      | some wh =>
        obtain ⟨w, h⟩ := wh
        have hlt : i < n - 1 := by
          simp at hi
          omega
        by_cases hfull : st.imagesOnCurrentPage + 1 ≥ ipp
        · rw [generatePDFLoop_cons_some_seal ipp margin pw ph aw ah n ⟨some (w, h)⟩ (r :: rs)
            i st w h rfl (And.intro hfull hlt)]
          exact ih (i + 1) _ lastImg hlast2 hsome hi2
        · rw [generatePDFLoop_cons_some_noseal ipp margin pw ph aw ah n ⟨some (w, h)⟩ (r :: rs)
            i st w h rfl (fun hand => hfull (And.left hand))]
          exact ih (i + 1) _ lastImg hlast2 hsome hi2

/-- Core page-count computation on the loop, for any geometry. -/
lemma generatePDFLoop_pageCount (ipp : ℕ) (hipp : 0 < ipp) (margin pw ph aw ah : ℚ)
    (images : List ImageModel)
    (hsafe : ipp ∣ placedCount images → placedCount images ≠ 0 →
      ∃ lastImg, images.getLast? = some lastImg ∧ lastImg.embed.isSome = true) :
    (generatePDFLoop ipp margin pw ph aw ah images.length images 0
        initialState).sealedPages.length + 1 =
      max 1 ((placedCount images + ipp - 1) / ipp) := by
  obtain ⟨e1, e2⟩ := generatePDFLoop_count ipp margin pw ph aw ah images.length hipp
    images 0 initialState (by simp) (by simpa [initialState] using hipp)
  simp only [initialState_sealedPages, initialState_imagesOnCurrentPage, List.length_nil,
    Nat.zero_mul, Nat.zero_add] at e1
  set S := (generatePDFLoop ipp margin pw ph aw ah images.length images 0
    initialState).sealedPages.length with hS
  set C := (generatePDFLoop ipp margin pw ph aw ah images.length images 0
    initialState).imagesOnCurrentPage with hC
  by_cases hplaced : placedCount images = 0
  · have hS0 : S = 0 := by
      rcases Nat.mul_eq_zero.mp (by omega : S * ipp = 0) with h | h
      · exact h
      · omega
    have hdiv : (placedCount images + ipp - 1) / ipp = 0 :=
      Nat.div_eq_of_lt (by omega)
    rw [hS0, hdiv]
    simp
  · by_cases hC0 : C = 0
    · exfalso
      have hdvd : ipp ∣ placedCount images := ⟨S, by rw [Nat.mul_comm]; omega⟩
      obtain ⟨lastImg, hl, hs⟩ := hsafe hdvd hplaced
      have hge := generatePDFLoop_last_success ipp margin pw ph aw ah images.length
        images 0 initialState lastImg hl hs (by simp)
      omega
    · have harith : placedCount images + ipp - 1 = (C - 1) + ipp * (S + 1) := by
        have hd : ipp * (S + 1) = S * ipp + ipp := by ring
        omega
      have hdiv : (placedCount images + ipp - 1) / ipp = S + 1 := by
        rw [harith, Nat.add_mul_div_left _ _ hipp, Nat.div_eq_of_lt (by omega)]
        omega
      rw [hdiv]
      omega

/-- Counterexample to claim C1 as stated: for the valid A4/portrait
configuration with `imagesPerPage = 1` and the two-image list
[successfully embedding 100×100 image, failing image], one placed image
yields `ceil(1/1) = 1` page by the claimed formula, but the document has
2 pages — the placed image fills page 1 and, not being the last list
element, triggers a page break whose new page then stays empty. -/
theorem generatePDF_pageCount_claim_counterexample :
    pageCount (generatePDF [⟨some (100, 100)⟩, ⟨none⟩]
        { pageSize := .A4, orientation := .portrait, margin := 20, quality := .high,
          filename := "images-converted.pdf", imagesPerPage := 1 }) = 2 ∧
    placedCount [(⟨some (100, 100)⟩ : ImageModel), ⟨none⟩] = 1 ∧
    max 1 ((placedCount [(⟨some (100, 100)⟩ : ImageModel), ⟨none⟩] + 1 - 1) / 1) = 1 := by
  refine ⟨?_, by simp [placedCount], by simp [placedCount]⟩
  rw [pageCount, pdfPages, generatePDF]
  rw [generatePDFLoop_cons_some_seal _ _ _ _ _ _ _ _ _ _ _ _ _ rfl
    (by constructor <;> simp [initialState])]
  rw [generatePDFLoop_cons_none _ _ _ _ _ _ _ _ _ _ _ rfl, generatePDFLoop_nil]
  simp [initialState]

/-- Claim C1 (amended): for every image list and valid configuration,
the page count is `max 1 (ceil(placedCount / imagesPerPage))` — but not
"regardless of which images fail": the formula requires that it not be
the case that the placed count is a nonzero multiple of `imagesPerPage`
while every image after the last placed one fails (i.e. if the placed
count is a positive multiple of `imagesPerPage`, the last list element
itself must embed successfully).  Otherwise the final page break leaves
one extra, empty trailing page. -/
theorem generatePDF_pageCount_amended (images : List ImageModel) (options : ConversionOptions)
    (hmode : options.imagesPerPage = 1 ∨ options.imagesPerPage = 2 ∨ options.imagesPerPage = 4)
    (hsafe : options.imagesPerPage ∣ placedCount images → placedCount images ≠ 0 →
      ∃ lastImg, images.getLast? = some lastImg ∧ lastImg.embed.isSome = true) :
    pageCount (generatePDF images options) =
      max 1 ((placedCount images + options.imagesPerPage - 1) / options.imagesPerPage) := by
  have hipp : 0 < options.imagesPerPage := by rcases hmode with h | h | h <;> omega
  have hcore := generatePDFLoop_pageCount options.imagesPerPage hipp options.margin
    (pageWidthOf options) (pageHeightOf options) (availableWidthOf options)
    (availableHeightOf options) images hsafe
  rw [pageCount, pdfPages, generatePDF]
  simpa using hcore

/-- Witness for the amended claim C1: one successfully embedding image,
`imagesPerPage = 1` — one page. -/
theorem generatePDF_pageCount_amended_witness :
    pageCount (generatePDF [⟨some (100, 100)⟩]
        { pageSize := .A4, orientation := .portrait, margin := 20, quality := .high,
          filename := "images-converted.pdf", imagesPerPage := 1 }) =
      max 1 ((placedCount [(⟨some (100, 100)⟩ : ImageModel)] + 1 - 1) / 1) :=
  generatePDF_pageCount_amended [⟨some (100, 100)⟩]
    { pageSize := .A4, orientation := .portrait, margin := 20, quality := .high,
      filename := "images-converted.pdf", imagesPerPage := 1 }
    (Or.inl rfl)
    (fun _ _ => ⟨⟨some (100, 100)⟩, rfl, rfl⟩)


/-- Claim C2: a failing image is skipped — it emits its progress value
but is not drawn, does not advance the slot counter and triggers no page
break, and the loop continues with the next image (first conjunct, the
exact one-step behaviour of the loop on a failing image).  In the
concrete scenario [valid 555×802 PNG, corrupt image, valid 555×401 JPEG]
with imagesPerPage = 1 on A4/portrait/margin 20, the output has exactly
2 pages, image A alone on page 1 and image C alone on page 2 (second
conjunct). -/
theorem generatePDF_skip_policy :
    (∀ (imagesPerPage : ℕ) (margin pw ph aw ah : ℚ) (n : ℕ) (img : ImageModel)
        (rest : List ImageModel) (i : ℕ) (st : GenState),
      img.embed = none →
      generatePDFLoop imagesPerPage margin pw ph aw ah n (img :: rest) i st =
        generatePDFLoop imagesPerPage margin pw ph aw ah n rest (i + 1)
          (pushProgress st (((i : ℚ) / (n : ℚ)) * 100))) ∧
    pdfPages (generatePDF [⟨some (555, 802)⟩, ⟨none⟩, ⟨some (555, 401)⟩]
        { pageSize := .A4, orientation := .portrait, margin := 20, quality := .high,
          filename := "images-converted.pdf", imagesPerPage := 1 }) =
      [[{ x := 20, y := 20, width := 555, height := 802 }],
       [{ x := 20, y := 220.5, width := 555, height := 401 }]] := by
  constructor
  · intro ipp margin pw ph aw ah n img rest i st hemb
    exact generatePDFLoop_cons_none ipp margin pw ph aw ah n img rest i st hemb
  · rw [pdfPages, generatePDF]
    rw [generatePDFLoop_cons_some_seal _ _ _ _ _ _ _ _ _ _ _ _ _ rfl
      (by constructor <;> simp [initialState])]
    rw [generatePDFLoop_cons_none _ _ _ _ _ _ _ _ _ _ _ rfl]
    rw [generatePDFLoop_cons_some_noseal _ _ _ _ _ _ _ _ _ _ _ _ _ rfl
      (by intro hand; simp at hand)]
    rw [generatePDFLoop_nil]
    simp only [pushProgress, placeImage, sealPage, initialState, drawRect,
      calculateImageDimensions, pageWidthOf, pageHeightOf, availableWidthOf, availableHeightOf,
      PAGE_SIZES]
    norm_num [min_def]

/-- Witness for claim C2's universally quantified skip equation, at a
concrete failing image. -/
theorem generatePDF_skip_policy_witness :
    generatePDFLoop 1 20 595 842 555 802 1 [⟨none⟩] 0 initialState =
      generatePDFLoop 1 20 595 842 555 802 1 [] (0 + 1)
        (pushProgress initialState ((((0 : ℕ) : ℚ) / ((1 : ℕ) : ℚ)) * 100)) :=
  generatePDF_skip_policy.1 1 20 595 842 555 802 1 ⟨none⟩ [] 0 initialState rfl


/-- The drawn image expected for the image at list index `j` when placed
at slot `slot`: `drawRect` on its intrinsic dimensions. -/
def expectedSlotDraw (ipp : ℕ) (margin pw ph aw ah : ℚ) (ds : List (ℚ × ℚ))
    (j slot : ℕ) : DrawnImage :=
  drawRect ipp margin pw ph aw ah slot (ds.getD j (0, 0)).1 (ds.getD j (0, 0)).2

/-- The first `r` slots of page `p` as the loop draws them when every
image embeds: slot `s` of page `p` holds image `p * ipp + s`. -/
def expectedPartialPage (ipp : ℕ) (margin pw ph aw ah : ℚ) (ds : List (ℚ × ℚ))
    (p r : ℕ) : List DrawnImage :=
  (List.range r).map (fun s => expectedSlotDraw ipp margin pw ph aw ah ds (p * ipp + s) s)

lemma expectedPartialPage_zero (ipp : ℕ) (margin pw ph aw ah : ℚ) (ds : List (ℚ × ℚ))
    (p : ℕ) : expectedPartialPage ipp margin pw ph aw ah ds p 0 = [] := rfl

lemma expectedPartialPage_succ (ipp : ℕ) (margin pw ph aw ah : ℚ) (ds : List (ℚ × ℚ))
    (p r : ℕ) :
    expectedPartialPage ipp margin pw ph aw ah ds p (r + 1) =
      expectedPartialPage ipp margin pw ph aw ah ds p r ++
        [expectedSlotDraw ipp margin pw ph aw ah ds (p * ipp + r) r] := by
  simp [expectedPartialPage, List.range_succ]

lemma expectedPartialPage_length (ipp : ℕ) (margin pw ph aw ah : ℚ) (ds : List (ℚ × ℚ))
    (p r : ℕ) : (expectedPartialPage ipp margin pw ph aw ah ds p r).length = r := by
  simp [expectedPartialPage]

/-- With every image embedding successfully, the loop runs to the state
described by the final quotient/remainder of the placed count: page `p`
holds images `p * ipp + s` at slot `s`; the final (never sealed) page
holds the remainder, always at least one image. -/
lemma generatePDFLoop_allSuccess (ipp : ℕ) (hipp : 0 < ipp) (margin pw ph aw ah : ℚ)
    (ds : List (ℚ × ℚ)) :
    ∀ (post : List (ℚ × ℚ)) (q r : ℕ) (prog : List ℚ),
      post ≠ [] →
      ds.drop (q * ipp + r) = post →
      r < ipp →
      (generatePDFLoop ipp margin pw ph aw ah ds.length
          (post.map (fun wh => (⟨some wh⟩ : ImageModel))) (q * ipp + r)
          { sealedPages := (List.range q).map
              (fun p => expectedPartialPage ipp margin pw ph aw ah ds p ipp),
            currentPage := expectedPartialPage ipp margin pw ph aw ah ds q r,
            imagesOnCurrentPage := r,
            progressEvents := prog }).sealedPages =
        (List.range ((ds.length - 1) / ipp)).map
          (fun p => expectedPartialPage ipp margin pw ph aw ah ds p ipp) ∧
      (generatePDFLoop ipp margin pw ph aw ah ds.length
          (post.map (fun wh => (⟨some wh⟩ : ImageModel))) (q * ipp + r)
          { sealedPages := (List.range q).map
              (fun p => expectedPartialPage ipp margin pw ph aw ah ds p ipp),
            currentPage := expectedPartialPage ipp margin pw ph aw ah ds q r,
            imagesOnCurrentPage := r,
            progressEvents := prog }).currentPage =
        expectedPartialPage ipp margin pw ph aw ah ds ((ds.length - 1) / ipp)
          (ds.length - ((ds.length - 1) / ipp) * ipp) ∧
      (generatePDFLoop ipp margin pw ph aw ah ds.length
          (post.map (fun wh => (⟨some wh⟩ : ImageModel))) (q * ipp + r)
          { sealedPages := (List.range q).map
              (fun p => expectedPartialPage ipp margin pw ph aw ah ds p ipp),
            currentPage := expectedPartialPage ipp margin pw ph aw ah ds q r,
            imagesOnCurrentPage := r,
            progressEvents := prog }).imagesOnCurrentPage =
        ds.length - ((ds.length - 1) / ipp) * ipp := by
  intro post
  induction post with
  | nil =>
    intro q r prog hne
    exact absurd rfl hne
  | cons wh rest ih =>
    intro q r prog _ hdrop hr
    obtain ⟨w, h⟩ := wh
    have hlen : q * ipp + r + ((w, h) :: rest).length = ds.length := by
      have hle : q * ipp + r ≤ ds.length := by
        by_contra hgt
        push_neg at hgt
        rw [List.drop_eq_nil_of_le hgt.le] at hdrop
        exact List.cons_ne_nil _ _ hdrop.symm
      have hdl := congrArg List.length hdrop
      rw [List.length_drop] at hdl
      omega
    have hget : ds.getD (q * ipp + r) (0, 0) = (w, h) := by
      have h0 : ds[q * ipp + r]? = some (w, h) := by
        have h1 := List.getElem?_drop ds (q * ipp + r) 0
        rw [hdrop] at h1
        simpa using h1.symm
      rw [List.getD_eq_getElem _ _ (by simp at hlen; omega), ← Option.some_inj, ← h0]
      exact (List.getElem?_eq_getElem _).symm
    have hdrop2 : ds.drop (q * ipp + r + 1) = rest := by
      have h1 := List.drop_drop 1 (q * ipp + r) ds
      rw [hdrop] at h1
      simpa [Nat.add_comm] using h1.symm
    simp only [List.map_cons]
    cases rest with
    | nil =>
      have hn : ds.length = q * ipp + r + 1 := by
        simp at hlen
        omega
      have hnoseal : ¬ (r + 1 ≥ ipp ∧ q * ipp + r < ds.length - 1) := by
        omega
      rw [generatePDFLoop_cons_some_noseal _ _ _ _ _ _ _ _ _ _ _ _ _ rfl hnoseal,
        List.map_nil, generatePDFLoop_nil]
      have hq : (ds.length - 1) / ipp = q := by
        rw [hn, Nat.add_sub_cancel, Nat.add_comm, Nat.mul_comm,
          Nat.add_mul_div_left _ _ hipp, Nat.div_eq_of_lt hr]
        omega
      have hr0 : ds.length - ((ds.length - 1) / ipp) * ipp = r + 1 := by
        rw [hq, hn]
        omega
      rw [hr0, hq]
      dsimp only
      refine ⟨rfl, ?_, rfl⟩
      have hslot : expectedSlotDraw ipp margin pw ph aw ah ds (q * ipp + r) r =
          drawRect ipp margin pw ph aw ah r w h := by
        simp only [expectedSlotDraw]
        rw [hget]
      rw [expectedPartialPage_succ, hslot]
      rfl
    | cons wh2 rest2 =>
      have hlt : q * ipp + r < ds.length - 1 := by
        simp at hlen
        omega
      by_cases hfull : r + 1 ≥ ipp
      · have hre : r + 1 = ipp := by omega
        rw [generatePDFLoop_cons_some_seal _ _ _ _ _ _ _ _ _ _ _ _ _ rfl
          (And.intro hfull hlt)]
        dsimp only
        have hstate : sealPage (placeImage
            (pushProgress
              { sealedPages := (List.range q).map
                  (fun p => expectedPartialPage ipp margin pw ph aw ah ds p ipp),
                currentPage := expectedPartialPage ipp margin pw ph aw ah ds q r,
                imagesOnCurrentPage := r,
                progressEvents := prog }
              ((((q * ipp + r : ℕ) : ℚ) / ((ds.length : ℕ) : ℚ)) * 100))
            (drawRect ipp margin pw ph aw ah r w h)) =
            { sealedPages := (List.range (q + 1)).map
                (fun p => expectedPartialPage ipp margin pw ph aw ah ds p ipp),
              currentPage := expectedPartialPage ipp margin pw ph aw ah ds (q + 1) 0,
              imagesOnCurrentPage := 0,
              progressEvents := prog ++ [(((q * ipp + r : ℕ) : ℚ) / ((ds.length : ℕ) : ℚ)) * 100] } := by
          simp only [sealPage, placeImage, pushProgress, expectedPartialPage_zero]
          rw [List.range_succ, List.map_append, List.map_singleton]
          have hchunk : expectedPartialPage ipp margin pw ph aw ah ds q r ++
              [drawRect ipp margin pw ph aw ah r w h] =
              expectedPartialPage ipp margin pw ph aw ah ds q ipp := by
            rw [← hre, expectedPartialPage_succ]
            simp only [expectedSlotDraw]
            rw [show ds.getD (q * (r + 1) + r) (0, 0) = (w, h) from by rw [hre]; exact hget]
          rw [hchunk]
        rw [hstate]
        have hidx : q * ipp + r + 1 = (q + 1) * ipp + 0 := by
          have hd : (q + 1) * ipp = q * ipp + ipp := by ring
          omega
        have hdrop3 : ds.drop ((q + 1) * ipp + 0) = wh2 :: rest2 := by
          rw [← hidx]
          exact hdrop2
        have hrec := ih (q + 1) 0 (prog ++ [(((q * ipp + r : ℕ) : ℚ) / ((ds.length : ℕ) : ℚ)) * 100])
          (List.cons_ne_nil _ _) hdrop3 hipp
        rw [hidx]
        exact hrec
      · rw [generatePDFLoop_cons_some_noseal _ _ _ _ _ _ _ _ _ _ _ _ _ rfl
          (fun hand => hfull (And.left hand))]
        have hstate : placeImage
            (pushProgress
              { sealedPages := (List.range q).map
                  (fun p => expectedPartialPage ipp margin pw ph aw ah ds p ipp),
                currentPage := expectedPartialPage ipp margin pw ph aw ah ds q r,
                imagesOnCurrentPage := r,
                progressEvents := prog }
              ((((q * ipp + r : ℕ) : ℚ) / ((ds.length : ℕ) : ℚ)) * 100))
            (drawRect ipp margin pw ph aw ah r w h) =
            { sealedPages := (List.range q).map
                (fun p => expectedPartialPage ipp margin pw ph aw ah ds p ipp),
              currentPage := expectedPartialPage ipp margin pw ph aw ah ds q (r + 1),
              imagesOnCurrentPage := r + 1,
              progressEvents := prog ++ [(((q * ipp + r : ℕ) : ℚ) / ((ds.length : ℕ) : ℚ)) * 100] } := by
          simp only [placeImage, pushProgress]
          rw [expectedPartialPage_succ]
          simp only [expectedSlotDraw]
          rw [hget]
        rw [hstate]
        have hidx : q * ipp + r + 1 = q * ipp + (r + 1) := by omega
        have hdrop3 : ds.drop (q * ipp + (r + 1)) = wh2 :: rest2 := by
          rw [← hidx]
          exact hdrop2
        have hrec := ih q (r + 1) (prog ++ [(((q * ipp + r : ℕ) : ℚ) / ((ds.length : ℕ) : ℚ)) * 100])
          (List.cons_ne_nil _ _) hdrop3 (by omega)
        rw [hidx]
        exact hrec


lemma getD_map_range {α : Type} (f : ℕ → α) (k p : ℕ) (d : α) (h : p < k) :
    ((List.range k).map f).getD p d = f p := by
  rw [List.getD_eq_getElem _ _ (by simpa using h)]
  simp

/-- Pages of `generatePDF` when every image embeds successfully: full
pages of `imagesPerPage` images followed by a non-empty final page with
the remainder. -/
lemma generatePDF_allSuccess_pages (ds : List (ℚ × ℚ)) (options : ConversionOptions)
    (hipp : 0 < options.imagesPerPage) (hne : ds ≠ []) :
    pdfPages (generatePDF (ds.map (fun wh => (⟨some wh⟩ : ImageModel))) options) =
      (List.range ((ds.length - 1) / options.imagesPerPage)).map
        (fun p => expectedPartialPage options.imagesPerPage options.margin
          (pageWidthOf options) (pageHeightOf options) (availableWidthOf options)
          (availableHeightOf options) ds p options.imagesPerPage) ++
      [expectedPartialPage options.imagesPerPage options.margin
        (pageWidthOf options) (pageHeightOf options) (availableWidthOf options)
        (availableHeightOf options) ds ((ds.length - 1) / options.imagesPerPage)
        (ds.length - ((ds.length - 1) / options.imagesPerPage) * options.imagesPerPage)] := by
  obtain ⟨hsealed, hcur, _⟩ := generatePDFLoop_allSuccess options.imagesPerPage hipp
    options.margin (pageWidthOf options) (pageHeightOf options) (availableWidthOf options)
    (availableHeightOf options) ds ds 0 0 [] hne (by simp) hipp
  simp only [Nat.zero_mul, Nat.zero_add, List.range_zero, List.map_nil,
    expectedPartialPage_zero] at hsealed hcur
  rw [pdfPages, generatePDF]
  simp only [pushProgress_sealedPages, pushProgress_currentPage, List.length_map,
    initialState]
  rw [hsealed, hcur]


lemma expectedPartialPage_getD (ipp : ℕ) (margin pw ph aw ah : ℚ) (ds : List (ℚ × ℚ))
    (p r s : ℕ) (h : s < r) :
    (expectedPartialPage ipp margin pw ph aw ah ds p r).getD s default =
      expectedSlotDraw ipp margin pw ph aw ah ds (p * ipp + s) s := by
  simp only [expectedPartialPage]
  exact getD_map_range _ _ _ _ h

/-- Claim C5: when every image embeds successfully, the j-th image lands
in slot `j mod imagesPerPage` of page `floor(j / imagesPerPage)`: the
document has `max 1 (ceil(n / imagesPerPage))` pages, page `p` holds
`min imagesPerPage (n - p * imagesPerPage)` images, and the entry at
page `j / imagesPerPage`, position `j mod imagesPerPage` is the image
drawn from the j-th intrinsic size at slot `j mod imagesPerPage`. -/
theorem generatePDF_slot_assignment (ds : List (ℚ × ℚ)) (options : ConversionOptions)
    (hmode : options.imagesPerPage = 1 ∨ options.imagesPerPage = 2 ∨ options.imagesPerPage = 4) :
    (pdfPages (generatePDF (ds.map (fun wh => (⟨some wh⟩ : ImageModel))) options)).length =
      max 1 ((ds.length + options.imagesPerPage - 1) / options.imagesPerPage) ∧
    (∀ p, p < (pdfPages (generatePDF (ds.map (fun wh => (⟨some wh⟩ : ImageModel)))
        options)).length →
      ((pdfPages (generatePDF (ds.map (fun wh => (⟨some wh⟩ : ImageModel)))
          options)).getD p []).length =
        min options.imagesPerPage (ds.length - p * options.imagesPerPage)) ∧
    (∀ j, j < ds.length →
      ((pdfPages (generatePDF (ds.map (fun wh => (⟨some wh⟩ : ImageModel)))
          options)).getD (j / options.imagesPerPage) []).getD
            (j % options.imagesPerPage) default =
        expectedSlotDraw options.imagesPerPage options.margin (pageWidthOf options)
          (pageHeightOf options) (availableWidthOf options) (availableHeightOf options)
          ds j (j % options.imagesPerPage)) := by
  have hipp : 0 < options.imagesPerPage := by rcases hmode with hm | hm | hm <;> omega
  by_cases hds : ds = []
  · subst hds
    refine ⟨?_, ?_, ?_⟩
    · simp only [List.map_nil, pdfPages, generatePDF, generatePDFLoop_nil, List.length_nil]
      rw [Nat.div_eq_of_lt (by omega)]
      simp
    · intro p hp
      simp only [List.map_nil, pdfPages, generatePDF, generatePDFLoop_nil] at hp ⊢
      simp only [pushProgress_sealedPages, initialState_sealedPages, List.nil_append,
        List.length_singleton] at hp
      interval_cases p
      simp [pushProgress, initialState]
    · intro j hj
      simp at hj
  · have hn1 : 1 ≤ ds.length := List.length_pos.mpr hds
    have hpages := generatePDF_allSuccess_pages ds options hipp hds
    have hmod := Nat.div_add_mod (ds.length - 1) options.imagesPerPage
    have hmlt : (ds.length - 1) % options.imagesPerPage < options.imagesPerPage :=
      Nat.mod_lt _ hipp
    have hcomm : (ds.length - 1) / options.imagesPerPage * options.imagesPerPage =
        options.imagesPerPage * ((ds.length - 1) / options.imagesPerPage) :=
      Nat.mul_comm _ _
    have hrc : ds.length - (ds.length - 1) / options.imagesPerPage * options.imagesPerPage =
        (ds.length - 1) % options.imagesPerPage + 1 := by omega
    refine ⟨?_, ?_, ?_⟩
    · rw [hpages]
      simp only [List.length_append, List.length_map, List.length_range,
        List.length_singleton]
      have harith : ds.length + options.imagesPerPage - 1 =
          (ds.length - 1) % options.imagesPerPage +
            options.imagesPerPage * ((ds.length - 1) / options.imagesPerPage + 1) := by
        have hx : options.imagesPerPage * ((ds.length - 1) / options.imagesPerPage + 1) =
            options.imagesPerPage * ((ds.length - 1) / options.imagesPerPage) +
              options.imagesPerPage := by ring
        omega
      rw [harith, Nat.add_mul_div_left _ _ hipp, Nat.div_eq_of_lt hmlt, Nat.zero_add,
        Nat.max_eq_right (Nat.le_add_left 1 _)]
    · intro p hp
      rw [hpages] at hp ⊢
      simp only [List.length_append, List.length_map, List.length_range,
        List.length_singleton] at hp
      rcases Nat.lt_or_ge p ((ds.length - 1) / options.imagesPerPage) with hpf | hpf
      · rw [List.getD_append _ _ _ _ (by simp; omega)]
        rw [getD_map_range _ _ _ _ hpf]
        rw [expectedPartialPage_length]
        have h1 : (p + 1) * options.imagesPerPage ≤
            (ds.length - 1) / options.imagesPerPage * options.imagesPerPage :=
          Nat.mul_le_mul_right _ (by omega)
        have h2 : (p + 1) * options.imagesPerPage =
            p * options.imagesPerPage + options.imagesPerPage := by ring
        exact (Nat.min_eq_left (by omega)).symm
      · have hpeq : p = (ds.length - 1) / options.imagesPerPage := by omega
        subst hpeq
        rw [List.getD_append_right _ _ _ _ (by simp)]
        simp only [List.length_map, List.length_range, Nat.sub_self, List.getD_cons_zero]
        rw [expectedPartialPage_length]
        exact (Nat.min_eq_right (by omega)).symm
    · intro j hj
      rw [hpages]
      have hdm := Nat.div_add_mod j options.imagesPerPage
      have hjm : j % options.imagesPerPage < options.imagesPerPage := Nat.mod_lt _ hipp
      have hcomm2 : j / options.imagesPerPage * options.imagesPerPage =
          options.imagesPerPage * (j / options.imagesPerPage) := Nat.mul_comm _ _
      have hdle : j / options.imagesPerPage ≤ (ds.length - 1) / options.imagesPerPage :=
        Nat.div_le_div_right (by omega)
      rcases Nat.lt_or_ge (j / options.imagesPerPage)
          ((ds.length - 1) / options.imagesPerPage) with hdf | hdf
      · rw [List.getD_append _ _ _ _ (by simp; omega)]
        rw [getD_map_range _ _ _ _ hdf]
        rw [expectedPartialPage_getD _ _ _ _ _ _ _ _ _ _ hjm]
        have hidx : j / options.imagesPerPage * options.imagesPerPage +
            j % options.imagesPerPage = j := by omega
        rw [hidx]
      · have hdeq : j / options.imagesPerPage = (ds.length - 1) / options.imagesPerPage := by
          omega
        have hda : j / options.imagesPerPage * options.imagesPerPage =
            (ds.length - 1) / options.imagesPerPage * options.imagesPerPage := by
          rw [hdeq]
        rw [hdeq, List.getD_append_right _ _ _ _ (by simp)]
        simp only [List.length_map, List.length_range, Nat.sub_self, List.getD_cons_zero]
        have hjmlt : j % options.imagesPerPage <
            ds.length - (ds.length - 1) / options.imagesPerPage * options.imagesPerPage := by
          omega
        rw [expectedPartialPage_getD _ _ _ _ _ _ _ _ _ _ hjmlt]
        have hidx : (ds.length - 1) / options.imagesPerPage * options.imagesPerPage +
            j % options.imagesPerPage = j := by omega
        rw [hidx]


/-- Witness for claim C5: one 400×300 image, 1 image per page — exactly
one page. -/
theorem generatePDF_slot_assignment_witness :
    (pdfPages (generatePDF ([((400 : ℚ), (300 : ℚ))].map
        (fun wh => (⟨some wh⟩ : ImageModel)))
        { pageSize := .A4, orientation := .portrait, margin := 20, quality := .high,
          filename := "images-converted.pdf", imagesPerPage := 1 })).length =
      max 1 (([((400 : ℚ), (300 : ℚ))].length + 1 - 1) / 1) :=
  (generatePDF_slot_assignment [((400 : ℚ), (300 : ℚ))]
    { pageSize := .A4, orientation := .portrait, margin := 20, quality := .high,
      filename := "images-converted.pdf", imagesPerPage := 1 }
    (Or.inl rfl)).1

end PdfConverter
